import Mathlib

/-!
Verification of the DPX codec in `Tools/dpxderez.py` (functions
`readDPXMetaData`, `readDPXImageData`, `writeDPX` and the module-level
header cache `dpx_header` / `dpx_endian` / `dpx_offset` / `dpx_meta`).

Modelling conventions:
* A seekable byte source is a length plus a byte-at-position function;
  `f.seek(p); f.read(n)` returns the available bytes, truncated at EOF,
  exactly as Python file reads do.
* Python floats are modelled as rationals (`ℚ`); every claim-relevant
  float computation here (scaling by 1023, truncation, comparison with
  0 and 1) is exact, so no IEEE rounding is modelled.
* `numpy` reads `int32` payload words in machine-native order; as on the
  platforms this script targets, native order is little-endian.
  A signed int32 is represented by its bit pattern (a `Nat < 2^32`);
  numpy's arithmetic right shift on a signed value is floor division of
  the signed interpretation, and `& 0x3FF` keeps the low ten bits of the
  two's complement, i.e. the nonnegative remainder mod 1024.
* `astype(np.int32)` truncates toward zero (`Int.tdiv` on the rational's
  numerator) and then wraps to the int32 range; conversion of values far
  outside the int32 range is platform-dependent in numpy, so theorems
  about encoding carry the hypothesis that the truncated value fits in
  an int32.
* Python `str.decode('UTF-8')` of the fixed-width text fields is kept as
  the raw byte list: no claim inspects a text field, and the two magic
  tokens are pure ASCII, so comparing byte lists is equivalent.
-/

namespace DpxDerez

/-- A seekable, readable byte source: a size and the byte at each
position below the size. -/
structure ByteSrc where
  size : Nat
  byteAt : Nat → Nat

/-- `n` consecutive bytes of `src` starting at position `off`. -/
def readBytes (src : ByteSrc) : Nat → Nat → List Nat
  | _, 0 => []
  | off, n + 1 => src.byteAt off :: readBytes src (off + 1) n

/-- `f.seek(off); f.read(n)`: the available bytes, truncated at EOF. -/
def readAvail (src : ByteSrc) (off n : Nat) : List Nat :=
  readBytes src off (min n (src.size - off))

/-- Big-endian unsigned integer assembly (`struct.unpack(">...")`). -/
def beNat (bs : List Nat) : Nat :=
  bs.foldl (fun a b => a * 256 + b) 0

/-- Little-endian unsigned integer assembly (`struct.unpack("<...")`). -/
def leNat (bs : List Nat) : Nat :=
  beNat bs.reverse

/-- Unsigned assembly honoring the endianness character selected from
the magic (`">"` big-endian, otherwise little-endian). -/
def endNat (e : String) (bs : List Nat) : Nat :=
  if e = ">" then beNat bs else leNat bs

/-- `ndarray.byteswap()` on one 32-bit element: reverse its four bytes. -/
def bswap32 (u : Nat) : Nat :=
  (u % 256) * 2 ^ 24 + (u / 2 ^ 8 % 256) * 2 ^ 16 +
    (u / 2 ^ 16 % 256) * 2 ^ 8 + u / 2 ^ 24 % 256

/-- The 32-bit word read in native (little-endian) order from four
consecutive bytes at position `p` (`np.fromfile(..., np.int32)`). -/
def leWord (src : ByteSrc) (p : Nat) : Nat :=
  src.byteAt p + src.byteAt (p + 1) * 2 ^ 8 +
    src.byteAt (p + 2) * 2 ^ 16 + src.byteAt (p + 3) * 2 ^ 24

/-- The four native (little-endian) bytes of a 32-bit word
(`ndarray.tofile`). -/
def leBytes32 (u : Nat) : List Nat :=
  [u % 256, u / 2 ^ 8 % 256, u / 2 ^ 16 % 256, u / 2 ^ 24 % 256]

/-- Signed interpretation of a 32-bit pattern (two's complement). -/
def int32OfPat (u : Nat) : Int :=
  if u % 2 ^ 32 < 2 ^ 31 then (u % 2 ^ 32 : Nat) else (u % 2 ^ 32 : Nat) - 2 ^ 32

/-- Write `d` into `file` starting at byte position `pos`, zero-filling
any gap beyond the current end of `file` (`f.seek(pos); f.write(d)`). -/
def writeAt (file : List Nat) (pos : Nat) (d : List Nat) : List Nat :=
  (file ++ List.replicate (pos - file.length) 0).take pos ++ d ++
    file.drop (pos + d.length)

/-! ## The header field table (`propertymap`) -/

/-- The `type` tag of a `propertymap` entry: `'magic'`, `'utf8'`,
`'B'`, `'H'`, `'I'`, `'f'`, `'s'`. -/
inductive FieldKind where
  | magicK | utf8 | uint8 | uint16 | uint32 | float32 | raw
  deriving DecidableEq

/-- A decoded header field value.  Text fields keep their raw bytes
(UTF-8 decoding is not modelled; no claim inspects them); `'f'` fields
keep the assembled 32-bit pattern (their IEEE interpretation is never
used by the codec). -/
inductive FieldVal where
  | num (n : Nat)
  | fbits (n : Nat)
  | str (s : String)
  | text (bs : List Nat)
  | raw (bs : List Nat)
  deriving DecidableEq

/-- One `(field name, offset, length, type)` entry of `propertymap`. -/
structure PEntry where
  name : String
  off : Nat
  len : Nat
  kind : FieldKind
  deriving DecidableEq

/-- The fixed field table, transcribed entry by entry from the source. -/
def propertymap : List PEntry := [
  -- Generic header
  ⟨"magic", 0, 4, .magicK⟩,
  ⟨"offset", 4, 4, .uint32⟩,
  ⟨"dpx_version", 8, 8, .utf8⟩,
  ⟨"file_size", 16, 4, .uint32⟩,
  ⟨"ditto", 20, 4, .uint32⟩,
  ⟨"generic_size", 24, 4, .uint32⟩,
  ⟨"industry_size", 28, 4, .uint32⟩,
  ⟨"user_size", 32, 4, .uint32⟩,
  ⟨"filename", 36, 100, .utf8⟩,
  ⟨"timestamp", 136, 24, .utf8⟩,
  ⟨"creator", 160, 100, .utf8⟩,
  ⟨"project_name", 260, 200, .utf8⟩,
  ⟨"copyright", 460, 200, .utf8⟩,
  ⟨"encryption_key", 660, 4, .uint32⟩,
  ⟨"generic_reserved", 664, 104, .raw⟩,
  -- Image header
  ⟨"orientation", 768, 2, .uint16⟩,
  ⟨"image_element_count", 770, 2, .uint16⟩,
  ⟨"width", 772, 4, .uint32⟩,
  ⟨"height", 776, 4, .uint32⟩,
  -- Only first image element decoded
  ⟨"data_sign", 780, 4, .uint32⟩,
  ⟨"low_data", 784, 4, .uint32⟩,
  ⟨"low_quantity", 788, 4, .float32⟩,
  ⟨"high_data", 792, 4, .uint32⟩,
  ⟨"high_quantity", 796, 4, .float32⟩,
  ⟨"descriptor", 800, 1, .uint8⟩,
  ⟨"transfer_characteristic", 801, 1, .uint8⟩,
  ⟨"colorimetry", 802, 1, .uint8⟩,
  ⟨"depth", 803, 1, .uint8⟩,
  ⟨"packing", 804, 2, .uint16⟩,
  ⟨"encoding", 806, 2, .uint16⟩,
  ⟨"line_padding", 812, 4, .uint32⟩,
  ⟨"image_padding", 816, 4, .uint32⟩,
  ⟨"image_element_description", 820, 32, .utf8⟩,
  ⟨"image_reserved", 852, 556, .raw⟩,
  -- Orientation header
  ⟨"x_offset", 1408, 4, .uint32⟩,
  ⟨"y_offset", 1412, 4, .uint32⟩,
  ⟨"x_center", 1416, 4, .float32⟩,
  ⟨"y_center", 1420, 4, .float32⟩,
  ⟨"x_originalsize", 1424, 4, .uint32⟩,
  ⟨"y_originalsize", 1428, 4, .uint32⟩,
  ⟨"source_filename", 1432, 100, .utf8⟩,
  ⟨"source_timestamp", 1532, 24, .utf8⟩,
  ⟨"input_device_name", 1556, 32, .utf8⟩,
  ⟨"input_device_sn", 1588, 32, .utf8⟩,
  ⟨"border_xl", 1620, 2, .uint16⟩,
  ⟨"border_xr", 1622, 2, .uint16⟩,
  ⟨"border_yt", 1624, 2, .uint16⟩,
  ⟨"border_yb", 1626, 2, .uint16⟩,
  ⟨"aspect_h", 1628, 4, .uint32⟩,
  ⟨"aspect_v", 1632, 4, .uint32⟩,
  ⟨"orientation_reserved", 1636, 28, .raw⟩,
  -- Film industry info
  ⟨"film_industry_header", 1664, 256, .raw⟩,
  -- Television industry info
  ⟨"timecode", 1920, 4, .uint32⟩,
  ⟨"user_bits", 1924, 4, .uint32⟩,
  ⟨"interlace", 1928, 1, .uint8⟩,
  ⟨"field_number", 1929, 1, .uint8⟩,
  ⟨"video_signal", 1930, 1, .uint8⟩,
  ⟨"tv_padding", 1931, 1, .uint8⟩,
  ⟨"h_sample_rate", 1932, 4, .float32⟩,
  ⟨"v_sample_rate", 1936, 4, .float32⟩,
  ⟨"frame_rate", 1940, 4, .float32⟩,
  ⟨"time_offset", 1944, 4, .float32⟩,
  ⟨"gamma", 1948, 4, .float32⟩,
  ⟨"black_level", 1952, 4, .float32⟩,
  ⟨"black_gain", 1956, 4, .float32⟩,
  ⟨"break_point", 1960, 4, .float32⟩,
  ⟨"white_level", 1964, 4, .float32⟩,
  ⟨"integration_times", 1968, 4, .float32⟩,
  ⟨"tv_reserved", 1972, 76, .raw⟩]

/-- The decoded metadata dictionary: field name to decoded value, in
insertion order (field names in `propertymap` are pairwise distinct, so
first-match lookup agrees with Python dict lookup). -/
abbrev MetaDict : Type := List (String × FieldVal)

instance {α β : Type} [DecidableEq α] [DecidableEq β] :
    DecidableEq (Except α β) := fun a b =>
  match a, b with
  | .ok x, .ok y =>
      if h : x = y then .isTrue (by rw [h])
      else .isFalse (fun hc => h (by cases hc; rfl))
  | .error x, .error y =>
      if h : x = y then .isTrue (by rw [h])
      else .isFalse (fun hc => h (by cases hc; rfl))
  | .ok _, .error _ => .isFalse (fun hc => by cases hc)
  | .error _, .ok _ => .isFalse (fun hc => by cases hc)

/-- Dictionary lookup `meta[k]`. -/
def lookupS (m : MetaDict) (k : String) : Option FieldVal :=
  match m with
  | [] => none
  | (n, v) :: rest => if n = k then some v else lookupS rest k

/-- Numeric dictionary access; on parse-produced metadata the key is
always present with a numeric value (`meta['offset']` never fails in
the source once the loop has run), so the default is unreachable
where this is used. -/
def getNumD (m : MetaDict) (k : String) : Nat :=
  match lookupS m k with
  | some (.num n) => n
  | _ => 0

/-- The ASCII bytes of the big-endian magic token `"SDPX"`. -/
def magicSDPX : List Nat := [83, 68, 80, 88]

/-- The ASCII bytes of the little-endian magic token `"XPDS"`. -/
def magicXPDS : List Nat := [88, 80, 68, 83]

/-- `'magic'` and `'utf8'` fields tolerate a short read (no
`struct.unpack`); every other kind unpacks an exact byte count and
fails on a short read. -/
def exactKind : FieldKind → Bool
  | .magicK => false
  | .utf8 => false
  | _ => true

/-- The dictionary entries one `propertymap` entry contributes, given
the endianness character `e` selected from the magic.  The `'magic'`
entry also stores the derived `'endianness'` key (source line 237). -/
def fieldVal (src : ByteSrc) (e : String) (p : PEntry) : MetaDict :=
  let bs := readAvail src p.off p.len
  match p.kind with
  | .magicK =>
      [(p.name, .str (if e = ">" then "SDPX" else "XPDS")),
       ("endianness", .str (if e = ">" then "be" else "le"))]
  | .utf8 => [(p.name, .text bs)]
  | .uint8 => [(p.name, .num (endNat e bs))]
  | .uint16 => [(p.name, .num (endNat e bs))]
  | .uint32 => [(p.name, .num (endNat e bs))]
  | .float32 => [(p.name, .fbits (endNat e bs))]
  | .raw => [(p.name, .raw bs)]

/-- Parse failures: the magic matched neither token (the source returns
`None`), or a short read made `struct.unpack` fail. -/
inductive PErr where
  | badMagic | short
  deriving DecidableEq

/-- The field loop of `readDPXMetaData` (source lines 230-249). -/
def runFields (src : ByteSrc) (e : String) :
    List PEntry → MetaDict → Except PErr MetaDict
  | [], m => .ok m
  | p :: rest, m =>
      if exactKind p.kind ∧ src.size < p.off + p.len then .error .short
      else runFields src e rest (m ++ fieldVal src e p)

/-- The module-level header cache (source lines 51-54): `dpx_header`,
`dpx_endian`, `dpx_offset`, `dpx_meta`. -/
structure Globals where
  dpx_header : Option (List Nat)
  dpx_endian : Option String
  dpx_offset : Int
  dpx_meta : Option MetaDict
  deriving DecidableEq

/-- The initial module state: `None`, `None`, `-1`, `None`. -/
def initGlobals : Globals := ⟨none, none, -1, none⟩

/-- The endianness character the parse selects from the magic bytes:
`">"` for `"SDPX"`, `"<"` otherwise (source line 226). -/
def endianOf (src : ByteSrc) : String :=
  if readAvail src 0 4 = magicSDPX then ">" else "<"

/-- `readDPXMetaData(f)` (source lines 214-259), with the module
globals passed and returned explicitly.  Reads 4 bytes at offset 0,
selects endianness from the magic, decodes every `propertymap` field,
then caches endianness, payload offset, the raw header bytes
`[0, offset)` and the metadata in the globals. -/
def readDPXMetaData (g : Globals) (src : ByteSrc) :
    Except PErr MetaDict × Globals :=
  if readAvail src 0 4 ≠ magicSDPX ∧ readAvail src 0 4 ≠ magicXPDS then
    (.error .badMagic, g)
  else
    match runFields src (endianOf src) propertymap [] with
    | .error er => (.error er, g)
    | .ok meta =>
        (.ok meta,
         { dpx_header := some (readAvail src 0 (getNumD meta "offset")),
           dpx_endian := some (endianOf src),
           dpx_offset := (getNumD meta "offset" : Nat),
           dpx_meta := some meta })

/-! ## Pixel decode (`readDPXImageData`) -/

/-- Decode failures: unsupported profile (the source returns `None` at
line 263), a missing metadata key (Python `KeyError`), or a payload too
short for `width*height` words (the `reshape` raises). -/
inductive DecErr where
  | unsupported | key | payload
  deriving DecidableEq

/-- One 10-bit channel extracted from a payload word: numpy right-shifts
the signed int32 (arithmetic shift = floor division) and masks with
`0x3FF` (= nonnegative remainder mod 1024). -/
def extractChan (u s : Nat) : Nat :=
  ((int32OfPat u / (2 ^ s : Int)) % 1024).toNat

/-- A channel normalized to `[0,1]`: the extracted 10-bit value divided
by 1023.0 (source lines 278-280). -/
def wordChan (u s : Nat) : ℚ :=
  (extractChan u s : ℚ) / 1023

/-- A decoded (or to-be-encoded) image: a height by width by channels
array of floats.  `px y x c` is the sample at row `y`, column `x`,
channel `c`; indices outside the shape are junk (modelled as 0). -/
structure Image where
  h : Nat
  w : Nat
  c : Nat
  px : Nat → Nat → Nat → ℚ

/-- The payload-reading part of `readDPXImageData` (source lines
265-282), reached once the profile check has passed: reads
`width*height` native int32 words at `meta['offset']` (the `reshape`
fails when fewer words are available), byteswaps them when
`meta['endianness'] == 'be'`, and extracts the three channels of the
word at row-major index `y*width + x`. -/
def readDPXPayload (src : ByteSrc) (meta : MetaDict) : Except DecErr Image :=
  match lookupS meta "width", lookupS meta "height", lookupS meta "offset" with
  | some (.num width), some (.num height), some (.num off) =>
    if (src.size - off) / 4 < width * height then .error .payload else
    match lookupS meta "endianness" with
    | some (.str e) =>
      .ok ⟨height, width, 3, fun y x c =>
        let u := leWord src (off + 4 * (y * width + x))
        let u := if e = "be" then bswap32 u else u
        if c = 0 then wordChan u 22
        else if c = 1 then wordChan u 12
        else if c = 2 then wordChan u 2
        else 0⟩
    | _ => .error .key
  | _, _, _ => .error .key

/-- `readDPXImageData(f, meta)` (source lines 261-282).  Checks the
supported profile with Python short-circuit evaluation order (line
262) and reads the payload only when the check passes. -/
def readDPXImageData (src : ByteSrc) (meta : MetaDict) : Except DecErr Image :=
  match lookupS meta "depth" with
  | some (.num depth) =>
    if depth ≠ 10 then .error .unsupported else
    match lookupS meta "packing" with
    | some (.num packing) =>
      if packing ≠ 1 then .error .unsupported else
      match lookupS meta "encoding" with
      | some (.num encoding) =>
        if encoding ≠ 0 then .error .unsupported else
        match lookupS meta "descriptor" with
        | some (.num descriptor) =>
          if descriptor ≠ 50 then .error .unsupported else
          readDPXPayload src meta
        | _ => .error .key
      | _ => .error .key
    | _ => .error .key
  | _ => .error .key

/-! ## Pixel encode (`writeDPX`) -/

/-- Truncation toward zero of a rational, as `astype(np.int32)` performs
on a (nonnegative or negative) float value: floor for nonnegative
values, ceiling for negative ones. -/
def truncQ (q : ℚ) : Int :=
  if q < 0 then ⌈q⌉ else ⌊q⌋

/-- Wrap an integer into the signed 32-bit range (two's complement).
numpy's float-to-int32 conversion is platform-dependent outside this
range; theorems about encoding assume the value already fits. -/
def astypeInt32 (x : Int) : Int :=
  (x + 2 ^ 31) % 2 ^ 32 - 2 ^ 31

/-- The 32-bit two's-complement bit pattern of a signed value. -/
def pat32 (x : Int) : Nat :=
  (x % 2 ^ 32).toNat

/-- The stored 10-bit channel for one float sample:
`(sample * 1023.0).astype(np.int32) & 0x3FF` (source lines 295-297). -/
def storedChan (q : ℚ) : Nat :=
  pat32 (astypeInt32 (truncQ (q * 1023))) &&& 0x3FF

/-- The packed 32-bit word for one pixel (source lines 295-298):
the three masked channels shifted to bits 31-22, 21-12, 11-2 and or-ed,
all in int32 width. -/
def packWord (r g b : ℚ) : Nat :=
  (storedChan r <<< 22) % 2 ^ 32 |||
    (storedChan g <<< 12) % 2 ^ 32 |||
    (storedChan b <<< 2) % 2 ^ 32

/-- `writeDPX(f, image)` (source lines 286-304), consuming the cached
module globals.  Writes the cached raw header at offset 0, packs every
pixel of the image (its own shape; no validation against the cached
header), byteswaps only when `dpx_endian == 'be'` (the cache actually
holds `">"` or `"<"`), and writes the words at `dpx_offset`.  Fails
(Python exception) when `dpx_header` is unset, when the image has
fewer than three channels (`image[:,:,2]` raises), or when
`dpx_offset` is negative (`f.seek` raises); the failure is untyped,
not a shape check. -/
def writeDPX (g : Globals) (img : Image) : Option (List Nat) :=
  match g.dpx_header with
  | none => none
  | some hdr =>
    if img.c < 3 then none
    else if g.dpx_offset < 0 then none
    else
      let words := (List.range (img.h * img.w)).map fun j =>
        packWord (img.px (j / img.w) (j % img.w) 0)
          (img.px (j / img.w) (j % img.w) 1)
          (img.px (j / img.w) (j % img.w) 2)
      let words := if g.dpx_endian = some "be" then words.map bswap32 else words
      some (writeAt (writeAt [] 0 hdr) g.dpx_offset.toNat
        (words.flatMap leBytes32))

/-- Modelled from the spec: the packing formula the spec states for
encode, `word = (round(R*1023) & 0x3FF) << 22 | (round(G*1023) & 0x3FF)
<< 12 | (round(B*1023) & 0x3FF) << 2`, with `round` the
round-to-nearest of the scaled channel value and `& 0x3FF` the low ten
bits of the two's complement. -/
def packWordSpec (r g b : ℚ) : Nat :=
  ((round (r * 1023) % 1024).toNat <<< 22) |||
    ((round (g * 1023) % 1024).toNat <<< 12) |||
    ((round (b * 1023) % 1024).toNat <<< 2)

/-! ## Result projections (the pixel result type carries a function, so
concrete facts are stated through these decidable projections). -/

/-- The metadata of a successful parse result (junk on failure). -/
def metaOfR : Except PErr MetaDict → MetaDict
  | .ok m => m
  | _ => []

/-- The image of a successful decode result (junk on failure). -/
def imgOfR : Except DecErr Image → Image
  | .ok i => i
  | _ => ⟨0, 0, 0, fun _ _ _ => 0⟩

/-- The shape of a successful decode result. -/
def shapeOf : Except DecErr Image → Option (Nat × Nat × Nat)
  | .ok i => some (i.h, i.w, i.c)
  | _ => none

/-- A sample of a successful decode result (junk on failure). -/
def pxOf (r : Except DecErr Image) (y x c : Nat) : ℚ :=
  (imgOfR r).px y x c

/-- Whether a decode result is the unsupported-profile failure. -/
def isUnsupported : Except DecErr Image → Bool
  | .error .unsupported => true
  | _ => false

/-- Whether a decode result succeeded. -/
def isOkI : Except DecErr Image → Bool
  | .ok _ => true
  | _ => false

/-! ## Concrete test sources -/

/-- A byte source given by a position-to-byte association list (absent
positions read as 0). -/
def srcOfPairs (len : Nat) (ps : List (Nat × Nat)) : ByteSrc :=
  ⟨len, fun i => ((ps.lookup i).getD 0)⟩

/-- A byte source over an explicit byte list. -/
def srcOfList (bs : List Nat) : ByteSrc :=
  ⟨bs.length, fun i => bs.getD i 0⟩

/-- A minimal big-endian (`"SDPX"`) file: payload offset 8, 1 by 1
image, supported profile, payload word `0x00400000` stored big-endian
at offset 8 (red channel = 1, i.e. the sample 1/1023).  Source length
2048 so every header field read succeeds. -/
def srcBE1 : ByteSrc :=
  srcOfPairs 2048 [(0, 83), (1, 68), (2, 80), (3, 88),
    (7, 8),
    (9, 64),
    (775, 1), (779, 1),
    (800, 50), (803, 10), (805, 1)]

/-- The little-endian (`"XPDS"`) variant of `srcBE1`: payload word
`0x00400000` stored little-endian at offset 8. -/
def srcLE1 : ByteSrc :=
  srcOfPairs 2048 [(0, 88), (1, 80), (2, 68), (3, 83),
    (4, 8),
    (10, 64),
    (772, 1), (776, 1),
    (800, 50), (803, 10), (804, 1)]

/-- `srcBE1` with descriptor 51 (RGBA) instead of 50. -/
def srcDesc51 : ByteSrc :=
  srcOfPairs 2048 [(0, 83), (1, 68), (2, 80), (3, 88),
    (7, 8),
    (9, 64),
    (775, 1), (779, 1),
    (800, 51), (803, 10), (805, 1)]

/-- A four-byte source whose magic matches neither token. -/
def srcBad : ByteSrc :=
  srcOfPairs 4 []

/-- The metadata parsed from `srcBE1`. -/
def metaBE1 : MetaDict := metaOfR (readDPXMetaData initGlobals srcBE1).1

/-- The module globals after parsing `srcBE1`. -/
def globalsBE1 : Globals := (readDPXMetaData initGlobals srcBE1).2

/-- The module globals after parsing `srcLE1`. -/
def globalsLE1 : Globals := (readDPXMetaData initGlobals srcLE1).2

/-- The image decoded from `srcBE1`. -/
def imgBE1 : Image := imgOfR (readDPXImageData srcBE1 metaBE1)

/-- The file produced by re-encoding `imgBE1` with the header cached
from `srcBE1`. -/
def sinkBE1 : List Nat := (writeDPX globalsBE1 imgBE1).getD []

/-- A 2 by 2, 3-channel constant image (its shape disagrees with the
1 by 1 header of `srcBE1`). -/
def imgMis : Image := ⟨2, 2, 3, fun _ _ _ => 1/2⟩

/-- A 1 by 1 image with four channels. -/
def img4c : Image := ⟨1, 1, 4, fun _ _ _ => 1/2⟩

/-- An empty 0 by 0, 3-channel image. -/
def imgEmpty : Image := ⟨0, 0, 3, fun _ _ _ => 0⟩

/-! ## Structural lemmas about the parser -/

theorem runFields_ok {src : ByteSrc} {e : String} :
    ∀ {es : List PEntry} {m m' : MetaDict}, runFields src e es m = .ok m' →
      m' = m ++ es.flatMap (fieldVal src e)
  | [], m, m', h => by
      simp only [runFields] at h
      cases h
      simp
  | p :: rest, m, m', h => by
      rw [runFields] at h
      split at h
      · exact absurd h (by simp)
      · have := runFields_ok h
        simp [this, List.flatMap_cons, List.append_assoc]

theorem runFields_ne_badMagic {src : ByteSrc} {e : String} :
    ∀ {es : List PEntry} {m : MetaDict}, runFields src e es m ≠ .error .badMagic
  | [], m => by simp [runFields]
  | p :: rest, m => by
      rw [runFields]
      split
      · simp
      · exact runFields_ne_badMagic

/-- A successful parse decodes exactly the field table (in order) and
caches the endianness character, the payload offset, the raw header
bytes and the metadata in the module globals. -/
theorem readDPXMetaData_ok {g g' : Globals} {src : ByteSrc} {meta : MetaDict}
    (h : readDPXMetaData g src = (.ok meta, g')) :
    meta = propertymap.flatMap (fieldVal src (endianOf src)) ∧
      g' = { dpx_header := some (readAvail src 0 (getNumD meta "offset")),
             dpx_endian := some (endianOf src),
             dpx_offset := (getNumD meta "offset" : Nat),
             dpx_meta := some meta } := by
  rw [readDPXMetaData] at h
  split at h
  · exact absurd (congrArg Prod.fst h) (by simp)
  · split at h
    · exact absurd (congrArg Prod.fst h) (by simp)
    · rename_i m2 hrun
      obtain ⟨h1, h2⟩ := Prod.mk.injEq .. ▸ h
      cases h1
      exact ⟨runFields_ok hrun, h2.symm ▸ rfl⟩

/-- A failed parse leaves the module globals untouched. -/
theorem readDPXMetaData_err {g g' : Globals} {src : ByteSrc} {er : PErr}
    (h : readDPXMetaData g src = (.error er, g')) : g' = g := by
  rw [readDPXMetaData] at h
  split at h
  · exact (congrArg Prod.snd h).symm
  · split at h
    · exact (congrArg Prod.snd h).symm
    · exact absurd (congrArg Prod.fst h) (by simp)

/-! ## Claim C6 -/

set_option maxHeartbeats 2000000 in
/-- Claim C6: the parser reads exactly four bytes at offset 0 and
fails with the bad-magic error precisely when they are neither the
big-endian token `"SDPX"` nor the little-endian token `"XPDS"`; on
success, every multi-byte numeric field of the table (uint16, uint32,
float32) is assembled from the bytes at its declared offset in the
endianness selected by which token matched. -/
theorem parse_magic_endian_selection (g g' : Globals) (src : ByteSrc)
    (r : Except PErr MetaDict) (h : readDPXMetaData g src = (r, g')) :
    (r = .error .badMagic ↔
      readAvail src 0 4 ≠ magicSDPX ∧ readAvail src 0 4 ≠ magicXPDS) ∧
    ∀ meta, r = .ok meta → ∀ p ∈ propertymap,
      ((p.kind = .uint16 ∨ p.kind = .uint32) →
        lookupS meta p.name =
          some (.num (if readAvail src 0 4 = magicSDPX
            then beNat (readAvail src p.off p.len)
            else leNat (readAvail src p.off p.len)))) ∧
      (p.kind = .float32 →
        lookupS meta p.name =
          some (.fbits (if readAvail src 0 4 = magicSDPX
            then beNat (readAvail src p.off p.len)
            else leNat (readAvail src p.off p.len)))) := by
  constructor
  · constructor
    · intro hr
      subst hr
      rw [readDPXMetaData] at h
      split at h
      · rename_i hm
        exact hm
      · split at h
        · rename_i er hrun
          have h1 := congrArg Prod.fst h
          simp only at h1
          cases h1
          exact absurd hrun runFields_ne_badMagic
        · exact absurd (congrArg Prod.fst h) (by simp)
    · intro hm
      rw [readDPXMetaData] at h
      rw [if_pos hm] at h
      exact (congrArg Prod.fst h).symm
  · intro meta hr
    subst hr
    have hmeta := (readDPXMetaData_ok h).1
    subst hmeta
    by_cases hbe : readAvail src 0 4 = magicSDPX
    · rw [show endianOf src = ">" from by unfold endianOf; rw [if_pos hbe]]
      simp only [if_pos hbe]
      intro p hp
      fin_cases hp <;>
        exact ⟨fun h => by first | rfl | exact absurd h (by decide),
               fun h => by first | rfl | exact absurd h (by decide)⟩
    · rw [show endianOf src = "<" from by unfold endianOf; rw [if_neg hbe]]
      simp only [if_neg hbe]
      intro p hp
      fin_cases hp <;>
        exact ⟨fun h => by first | rfl | exact absurd h (by decide),
               fun h => by first | rfl | exact absurd h (by decide)⟩

theorem parse_magic_endian_selection_witness :
    (readDPXMetaData initGlobals srcBad).1 = .error .badMagic ∧
    lookupS metaBE1 "width" = some (.num 1) := by
  constructor
  · exact (parse_magic_endian_selection initGlobals
      (readDPXMetaData initGlobals srcBad).2 srcBad
      (readDPXMetaData initGlobals srcBad).1 rfl).1.mpr (by decide)
  · have h := (parse_magic_endian_selection initGlobals globalsBE1 srcBE1
      (.ok metaBE1) rfl).2 metaBE1 rfl ⟨"width", 772, 4, .uint32⟩ (by decide)
    rw [h.1 (Or.inr rfl)]
    decide

/-! ## Claim C5 -/

theorem readDPXPayload_ne_unsupported (src : ByteSrc) (meta : MetaDict) :
    isUnsupported (readDPXPayload src meta) = false := by
  rw [readDPXPayload]
  split
  · split
    · rfl
    · split
      · rfl
      · rfl
  · rfl

set_option maxHeartbeats 1000000 in
set_option maxRecDepth 4000 in
/-- Claim C5: for metadata carrying the four profile fields, decode
fails with the unsupported-profile error (reading no payload: the
result is determined before any payload access) exactly when not
(depth = 10 and packing = 1 and encoding = 0 and descriptor = 50);
concretely, a file with descriptor 51 still parses successfully, its
metadata reports descriptor 51, and decode rejects it as
unsupported. -/
theorem decode_profile_rejection :
    (∀ (src : ByteSrc) (meta : MetaDict) (d p e ds : Nat),
      lookupS meta "depth" = some (.num d) →
      lookupS meta "packing" = some (.num p) →
      lookupS meta "encoding" = some (.num e) →
      lookupS meta "descriptor" = some (.num ds) →
      (isUnsupported (readDPXImageData src meta) = true ↔
        ¬(d = 10 ∧ p = 1 ∧ e = 0 ∧ ds = 50))) ∧
    (readDPXMetaData initGlobals srcDesc51).1 =
      .ok (metaOfR (readDPXMetaData initGlobals srcDesc51).1) ∧
    lookupS (metaOfR (readDPXMetaData initGlobals srcDesc51).1) "descriptor" =
      some (.num 51) ∧
    isUnsupported (readDPXImageData srcDesc51
      (metaOfR (readDPXMetaData initGlobals srcDesc51).1)) = true := by
  refine ⟨?_, rfl, rfl, rfl⟩
  intro src meta d p e ds hd hp he hds
  rw [readDPXImageData, hd, hp, he, hds]
  simp only
  by_cases h1 : d = 10 <;> by_cases h2 : p = 1 <;> by_cases h3 : e = 0 <;>
    by_cases h4 : ds = 50 <;>
    simp [h1, h2, h3, h4, readDPXPayload_ne_unsupported,
      show isUnsupported (Except.error DecErr.unsupported) = true from rfl]

theorem decode_profile_rejection_witness :
    isUnsupported (readDPXImageData srcBE1 metaBE1) = false := by
  have h := (decode_profile_rejection.1 srcBE1 metaBE1 10 1 0 50
    rfl rfl rfl rfl)
  have h2 : ¬isUnsupported (readDPXImageData srcBE1 metaBE1) = true := by
    rw [h]
    intro hc
    exact hc ⟨rfl, rfl, rfl, rfl⟩
  simpa using h2

/-! ## Claim C9 -/

theorem extractChan_lt (u s : Nat) : extractChan u s < 1024 := by
  unfold extractChan
  have h1 : (0 : Int) ≤ int32OfPat u / (2 ^ s : Int) % 1024 :=
    Int.emod_nonneg _ (by norm_num)
  have h2 : int32OfPat u / (2 ^ s : Int) % 1024 < 1024 :=
    Int.emod_lt_of_pos _ (by norm_num)
  omega

theorem wordChan_nonneg (u s : Nat) : 0 ≤ wordChan u s := by
  unfold wordChan
  positivity

theorem wordChan_le_one (u s : Nat) : wordChan u s ≤ 1 := by
  unfold wordChan
  rw [div_le_one (by norm_num)]
  have := extractChan_lt u s
  exact_mod_cast Nat.le_of_lt_succ (by omega)

/-- With the supported profile present, decode is exactly the
payload-reading part. -/
theorem decode_eq_payload {src : ByteSrc} {meta : MetaDict}
    (hd : lookupS meta "depth" = some (.num 10))
    (hp : lookupS meta "packing" = some (.num 1))
    (he : lookupS meta "encoding" = some (.num 0))
    (hds : lookupS meta "descriptor" = some (.num 50)) :
    readDPXImageData src meta = readDPXPayload src meta := by
  rw [readDPXImageData, hd, hp, he, hds]
  norm_num

/-- Claim C9: for every supported-profile header with width `w` and
height `h` and any payload content, a successful decode returns a
buffer of shape `(h, w, 3)` (row-major: the word at row-major index
`y*w + x` feeds pixel `(y, x)`, as fixed in `readDPXPayload`), whose
samples all lie in `[0, 1]`. -/
theorem decode_shape_and_range (src : ByteSrc) (meta : MetaDict)
    (img : Image) (w h off : Nat) (e : String)
    (hd : lookupS meta "depth" = some (.num 10))
    (hp : lookupS meta "packing" = some (.num 1))
    (he : lookupS meta "encoding" = some (.num 0))
    (hds : lookupS meta "descriptor" = some (.num 50))
    (hw : lookupS meta "width" = some (.num w))
    (hh : lookupS meta "height" = some (.num h))
    (hoff : lookupS meta "offset" = some (.num off))
    (hend : lookupS meta "endianness" = some (.str e))
    (hok : readDPXImageData src meta = .ok img) :
    img.h = h ∧ img.w = w ∧ img.c = 3 ∧
    ∀ y x c, y < h → x < w → c < 3 →
      0 ≤ img.px y x c ∧ img.px y x c ≤ 1 := by
  rw [decode_eq_payload hd hp he hds] at hok
  rw [readDPXPayload, hw, hh, hoff, hend] at hok
  dsimp only at hok
  split at hok
  · exact absurd hok (by simp)
  · cases hok
    refine ⟨rfl, rfl, rfl, ?_⟩
    intro y x c hy hx hc
    interval_cases c <;>
      exact ⟨wordChan_nonneg _ _, wordChan_le_one _ _⟩

set_option maxRecDepth 4000 in
theorem decode_shape_and_range_witness :
    imgBE1.h = 1 ∧ imgBE1.w = 1 ∧ imgBE1.c = 3 ∧
      (0 ≤ imgBE1.px 0 0 0 ∧ imgBE1.px 0 0 0 ≤ 1) := by
  have h := decode_shape_and_range srcBE1 metaBE1 imgBE1 1 1 8 "be"
    rfl rfl rfl rfl rfl rfl rfl rfl rfl
  exact ⟨h.1, h.2.1, h.2.2.1,
    h.2.2.2 0 0 0 (by norm_num) (by norm_num) (by norm_num)⟩

/-! ## Claim C4 -/

theorem readBytes_length (src : ByteSrc) :
    ∀ (n off : Nat), (readBytes src off n).length = n
  | 0, _ => rfl
  | n + 1, off => by
      rw [readBytes]
      simp [readBytes_length src n]

theorem readBytes_getD (src : ByteSrc) :
    ∀ (n off i : Nat), i < n →
      (readBytes src off n).getD i 0 = src.byteAt (off + i)
  | 0, _, _, h => absurd h (by omega)
  | n + 1, off, 0, _ => by rw [readBytes]; rfl
  | n + 1, off, i + 1, h => by
      rw [readBytes]
      have := readBytes_getD src n (off + 1) i (by omega)
      simpa [Nat.add_assoc, Nat.add_comm 1 i] using this

theorem writeAt_zero_nil (d : List Nat) : writeAt [] 0 d = d := by
  simp [writeAt]

theorem writeAt_exact (hdr d : List Nat) (pos : Nat) (h : hdr.length = pos) :
    writeAt hdr pos d = hdr ++ d := by
  subst h
  unfold writeAt
  simp [List.drop_eq_nil_of_le]

/-- Claim C4: on a successful parse whose payload offset fits within
the source, the cached raw header is exactly the source bytes
`[0, offset)`, and whenever a subsequent encode succeeds, every sink
byte below the payload offset equals the corresponding source byte
(the header is replayed verbatim at offset 0, uninterpreted fields
included). -/
theorem raw_header_preserved (g g' : Globals) (src : ByteSrc)
    (meta : MetaDict) (off : Nat)
    (hok : readDPXMetaData g src = (.ok meta, g'))
    (hoff : lookupS meta "offset" = some (.num off))
    (hlen : off ≤ src.size) :
    g'.dpx_header = some (readBytes src 0 off) ∧
    ∀ img sink, writeDPX g' img = some sink →
      ∀ i, i < off → sink.getD i 0 = src.byteAt i := by
  obtain ⟨hmeta, hg⟩ := readDPXMetaData_ok hok
  have hoffD : getNumD meta "offset" = off := by unfold getNumD; rw [hoff]
  have hread : readAvail src 0 off = readBytes src 0 off := by
    unfold readAvail
    rw [Nat.sub_zero, Nat.min_eq_left hlen]
  constructor
  · rw [hg]
    simp only [hoffD, hread]
  · intro img sink hw i hi
    rw [hg] at hw
    rw [writeDPX] at hw
    dsimp only at hw
    split at hw
    · exact absurd hw (by simp)
    · split at hw
      · exact absurd hw (by simp)
      · rw [Option.some_inj] at hw
        subst hw
        rw [hoffD, hread]
        try rw [writeAt_zero_nil]
        rw [Int.toNat_natCast]
        rw [writeAt_exact _ _ off (readBytes_length src off 0)]
        rw [List.getD_append _ _ _ _ (by rw [readBytes_length]; omega)]
        rw [readBytes_getD src off 0 i hi, Nat.zero_add]

set_option maxRecDepth 4000 in
theorem raw_header_preserved_witness :
    globalsBE1.dpx_header = some (readBytes srcBE1 0 8) ∧
    sinkBE1.getD 0 0 = srcBE1.byteAt 0 := by
  have h := raw_header_preserved initGlobals globalsBE1 srcBE1 metaBE1 8
    rfl rfl (by decide)
  exact ⟨h.1, h.2 imgBE1 sinkBE1 rfl 0 (by decide)⟩

/-! ## Claim C2 -/

set_option maxRecDepth 4000 in
/-- Claim C2 counterexample: the header cached from the 1 by 1 file
`srcBE1` accepts a 2 by 2 image (the encode succeeds and writes a
16-byte payload after the 8 header bytes) and also a four-channel
image, refuting the claim that shape drift fails with a shape error
and writes no payload. -/
theorem writeDPX_shape_drift_accepted :
    (writeDPX globalsBE1 imgMis).isSome = true ∧
    ((writeDPX globalsBE1 imgMis).getD []).length = 24 ∧
    (writeDPX globalsBE1 img4c).isSome = true := ⟨rfl, rfl, rfl⟩

/-- Claim C2 amended: `writeDPX` performs no shape validation.  With a
cached header and a nonnegative cached offset it succeeds for every
image with at least three channels, whatever its height, width or
channel count; an image with fewer than three channels fails with an
untyped indexing error (modelled as `none`), not a shape check. -/
theorem writeDPX_no_shape_check (g : Globals) (img : Image) (hdr : List Nat)
    (hh : g.dpx_header = some hdr) (hoffn : 0 ≤ g.dpx_offset)
    (hc : 3 ≤ img.c) :
    (writeDPX g img).isSome = true ∧
    ∀ img2 : Image, img2.c < 3 → writeDPX g img2 = none := by
  constructor
  · rw [writeDPX, hh]
    dsimp only
    rw [if_neg (by omega), if_neg (by omega)]
    rfl
  · intro img2 hc2
    rw [writeDPX, hh]
    dsimp only
    rw [if_pos hc2]

set_option maxRecDepth 4000 in
theorem writeDPX_no_shape_check_witness :
    (writeDPX globalsBE1 imgMis).isSome = true ∧
    writeDPX globalsBE1 ⟨1, 1, 2, fun _ _ _ => 0⟩ = none := by
  have h := writeDPX_no_shape_check globalsBE1 imgMis
    ((globalsBE1.dpx_header).getD []) rfl (by decide) (by decide)
  exact ⟨h.1, h.2 ⟨1, 1, 2, fun _ _ _ => 0⟩ (by decide)⟩

/-! ## Claim C3 -/

set_option maxRecDepth 4000 in
/-- Claim C3 counterexample: parsing mutates the module-level cache
(the globals after parsing `srcBE1` differ from the initial state),
and `writeDPX` reads that cache implicitly: called with the same
explicit arguments but after parsing different files, it writes
different bytes.  This refutes the claim that the parse has no effect
beyond the read cursor and that header state is carried only through
explicit return values. -/
theorem readDPXMetaData_module_state_effect :
    (readDPXMetaData initGlobals srcBE1).2 ≠ initGlobals ∧
    writeDPX globalsBE1 imgEmpty ≠ writeDPX globalsLE1 imgEmpty := by
  constructor
  · intro h
    exact absurd (congrArg Globals.dpx_offset h) (by decide)
  · intro h
    exact absurd (congrArg (fun o => (o.getD []).getD 0 0) h) (by decide)

/-- Claim C3 amended: a successful `readDPXMetaData` stores the raw
header bytes, the endianness character, the payload offset and the
metadata into the module-level globals (`dpx_header`, `dpx_endian`,
`dpx_offset`, `dpx_meta`), which `writeDPX` later consumes implicitly;
a failed parse leaves the globals unchanged. -/
theorem readDPXMetaData_caches_globals (g g' : Globals) (src : ByteSrc)
    (r : Except PErr MetaDict) (h : readDPXMetaData g src = (r, g')) :
    (∀ meta, r = .ok meta →
      g' = { dpx_header := some (readAvail src 0 (getNumD meta "offset")),
             dpx_endian := some (endianOf src),
             dpx_offset := (getNumD meta "offset" : Nat),
             dpx_meta := some meta }) ∧
    (∀ er, r = .error er → g' = g) := by
  constructor
  · intro meta hr
    subst hr
    exact (readDPXMetaData_ok h).2
  · intro er hr
    subst hr
    exact readDPXMetaData_err h

set_option maxRecDepth 4000 in
theorem readDPXMetaData_caches_globals_witness :
    globalsBE1 =
      { dpx_header := some (readAvail srcBE1 0 (getNumD metaBE1 "offset")),
        dpx_endian := some (endianOf srcBE1),
        dpx_offset := (getNumD metaBE1 "offset" : Nat),
        dpx_meta := some metaBE1 } ∧
    (readDPXMetaData initGlobals srcBad).2 = initGlobals := by
  have h1 := (readDPXMetaData_caches_globals initGlobals globalsBE1 srcBE1
    (.ok metaBE1) rfl).1 metaBE1 rfl
  have h2 := (readDPXMetaData_caches_globals initGlobals
    (readDPXMetaData initGlobals srcBad).2 srcBad
    (readDPXMetaData initGlobals srcBad).1 rfl).2 .badMagic (by decide)
  exact ⟨h1, h2⟩

/-! ## Claim C7 -/

/-- The signed (arithmetic shift, two's complement mask) extraction the
code performs agrees with the unsigned shift-and-mask formula for the
three shifts in use. -/
theorem extractChan_eq_mod (u : Nat) (s : Nat) (hu : u < 2 ^ 32)
    (h22 : s = 22 ∨ s = 12 ∨ s = 2) :
    extractChan u s = (u >>> s) &&& 0x3FF := by
  have hmask : (u >>> s) &&& 0x3FF = (u / 2 ^ s) % 2 ^ 10 := by
    rw [Nat.shiftRight_eq_div_pow]
    rw [show (0x3FF : Nat) = 2 ^ 10 - 1 from rfl]
    exact Nat.and_pow_two_sub_one_eq_mod _ 10
  rw [hmask]
  unfold extractChan int32OfPat
  rw [Nat.mod_eq_of_lt hu]
  rcases h22 with rfl | rfl | rfl <;>
    · norm_num
      split <;> omega

/-- Claim C7: for every 32-bit payload word `u` (after any endian
swap), the decoded channels are `((u >> 22) & 0x3FF)/1023`,
`((u >> 12) & 0x3FF)/1023` and `((u >> 2) & 0x3FF)/1023` — red in bits
31-22, green in 21-12, blue in 11-2, bits 1-0 ignored — even though
the code reads payload words as signed int32 with arithmetic shifts;
in particular the word `0xFFC00000` decodes to `(1, 0, 0)`. -/
theorem decode_bit_extraction :
    (∀ u, u < 2 ^ 32 →
      wordChan u 22 = (((u >>> 22) &&& 0x3FF : Nat) : ℚ) / 1023 ∧
      wordChan u 12 = (((u >>> 12) &&& 0x3FF : Nat) : ℚ) / 1023 ∧
      wordChan u 2 = (((u >>> 2) &&& 0x3FF : Nat) : ℚ) / 1023) ∧
    wordChan 0xFFC00000 22 = 1 ∧ wordChan 0xFFC00000 12 = 0 ∧
      wordChan 0xFFC00000 2 = 0 := by
  constructor
  · intro u hu
    refine ⟨?_, ?_, ?_⟩ <;>
      · unfold wordChan
        rw [extractChan_eq_mod u _ hu (by norm_num)]
  · have e1 : extractChan 0xFFC00000 22 = 1023 := rfl
    have e2 : extractChan 0xFFC00000 12 = 0 := rfl
    have e3 : extractChan 0xFFC00000 2 = 0 := rfl
    unfold wordChan
    rw [e1, e2, e3]
    norm_num

theorem decode_bit_extraction_witness :
    wordChan 305419896 22 = (((305419896 >>> 22) &&& 0x3FF : Nat) : ℚ) / 1023 :=
  (decode_bit_extraction.1 305419896 (by decide)).1

/-! ## Claims C8 and C10 -/

/-- For samples whose scaled truncation fits in an int32 (numpy's
float-to-int32 conversion is only defined there), the stored 10-bit
channel is the truncated value reduced mod 1024. -/
theorem storedChan_eq_emod (q : ℚ) (h1 : -2 ^ 31 ≤ truncQ (q * 1023))
    (h2 : truncQ (q * 1023) < 2 ^ 31) :
    storedChan q = ((truncQ (q * 1023)) % 1024).toNat := by
  unfold storedChan astypeInt32 pat32
  rw [show (0x3FF : Nat) = 2 ^ 10 - 1 from rfl, Nat.and_pow_two_sub_one_eq_mod]
  have hwrap : (truncQ (q * 1023) + 2 ^ 31) % 2 ^ 32 =
      truncQ (q * 1023) + 2 ^ 31 :=
    Int.emod_eq_of_lt (by omega) (by omega)
  rw [hwrap]
  norm_num
  omega

theorem shiftLeft_small {a k : Nat} (ha : a < 1024) (hk : k ≤ 22) :
    (a <<< k) % 2 ^ 32 = a <<< k := by
  apply Nat.mod_eq_of_lt
  rw [Nat.shiftLeft_eq]
  calc a * 2 ^ k < 1024 * 2 ^ k :=
        mul_lt_mul_of_pos_right ha (Nat.pos_pow_of_pos k (by norm_num))
    _ ≤ 1024 * 2 ^ 22 :=
        Nat.mul_le_mul_left 1024 (Nat.pow_le_pow_right (by norm_num) hk)
    _ = 2 ^ 32 := by norm_num

/-- Claim C10: encode neither clamps nor rejects out-of-range samples:
the stored 10-bit channel of any sample (whose scaled truncation fits
in an int32) is the truncation toward zero of `sample * 1023` reduced
mod 1024 — wrap-around, not saturation: the out-of-range samples `3/2`
and `-1/10` store 510 and 922 rather than 1023 or 0. -/
theorem storedChan_wraparound (q : ℚ) (h1 : -2 ^ 31 ≤ truncQ (q * 1023))
    (h2 : truncQ (q * 1023) < 2 ^ 31) :
    storedChan q = ((truncQ (q * 1023)) % 1024).toNat ∧
    storedChan (3/2) = 510 ∧ storedChan (-1/10) = 922 := by
  refine ⟨storedChan_eq_emod q h1 h2, ?_, ?_⟩
  · have ht : truncQ ((3/2 : ℚ) * 1023) = 1534 := by
      rw [show ((3/2 : ℚ) * 1023) = 3069/2 from by norm_num]
      unfold truncQ
      rw [if_neg (by norm_num), Int.floor_eq_iff]
      norm_num
    rw [storedChan_eq_emod (3/2) (by rw [ht]; norm_num) (by rw [ht]; norm_num),
      ht]
    decide
  · have ht : truncQ ((-1/10 : ℚ) * 1023) = -102 := by
      rw [show ((-1/10 : ℚ) * 1023) = -1023/10 from by norm_num]
      unfold truncQ
      rw [if_pos (by norm_num), Int.ceil_eq_iff]
      norm_num
    rw [storedChan_eq_emod (-1/10) (by rw [ht]; norm_num)
      (by rw [ht]; norm_num), ht]
    decide

theorem storedChan_wraparound_witness :
    storedChan (3/2) = 510 ∧
    storedChan (3/2) = ((truncQ ((3/2 : ℚ) * 1023)) % 1024).toNat := by
  have ht : truncQ ((3/2 : ℚ) * 1023) = 1534 := by
    rw [show ((3/2 : ℚ) * 1023) = 3069/2 from by norm_num]
    unfold truncQ
    rw [if_neg (by norm_num), Int.floor_eq_iff]
    norm_num
  have h := storedChan_wraparound (3/2) (by rw [ht]; norm_num)
    (by rw [ht]; norm_num)
  exact ⟨h.2.1, h.1⟩

/-- Claim C8 counterexample: at the sample `9/10` the packed word the
code produces (truncation: `trunc(920.7) = 920`) differs from the
spec's rounding formula (`round(920.7) = 921`). -/
theorem packWord_rounding_refuted :
    packWord (9/10) 0 0 ≠ packWordSpec (9/10) 0 0 := by
  have ht : truncQ ((9/10 : ℚ) * 1023) = 920 := by
    rw [show ((9/10 : ℚ) * 1023) = 9207/10 from by norm_num]
    unfold truncQ
    rw [if_neg (by norm_num), Int.floor_eq_iff]
    norm_num
  have ht0 : truncQ ((0 : ℚ) * 1023) = 0 := by
    rw [show ((0 : ℚ) * 1023) = 0 from by norm_num]
    unfold truncQ
    rw [if_neg (by norm_num)]
    norm_num
  have h1 : storedChan (9/10) = 920 := by
    rw [storedChan_eq_emod (9/10) (by rw [ht]; norm_num) (by rw [ht]; norm_num),
      ht]
    decide
  have h0 : storedChan 0 = 0 := by
    rw [storedChan_eq_emod 0 (by rw [ht0]; norm_num) (by rw [ht0]; norm_num),
      ht0]
    decide
  have hr : round ((9/10 : ℚ) * 1023) = 921 := by
    rw [show ((9/10 : ℚ) * 1023) = 9207/10 from by norm_num, round_eq]
    rw [Int.floor_eq_iff]
    norm_num
  have hr0 : round ((0 : ℚ) * 1023) = 0 := by norm_num
  unfold packWord packWordSpec
  rw [h1, h0, hr, hr0]
  decide

/-- Claim C8 amended: the packed word is the claim's formula with
round-to-nearest replaced by truncation toward zero (what
`astype(np.int32)` performs): `word = (trunc(R*1023) & 0x3FF) << 22 |
(trunc(G*1023) & 0x3FF) << 12 | (trunc(B*1023) & 0x3FF) << 2`, for
samples whose scaled truncation fits in an int32. -/
theorem packWord_truncation_formula (r g b : ℚ)
    (hr1 : -2 ^ 31 ≤ truncQ (r * 1023)) (hr2 : truncQ (r * 1023) < 2 ^ 31)
    (hg1 : -2 ^ 31 ≤ truncQ (g * 1023)) (hg2 : truncQ (g * 1023) < 2 ^ 31)
    (hb1 : -2 ^ 31 ≤ truncQ (b * 1023)) (hb2 : truncQ (b * 1023) < 2 ^ 31) :
    packWord r g b =
      ((truncQ (r * 1023) % 1024).toNat <<< 22) |||
      ((truncQ (g * 1023) % 1024).toNat <<< 12) |||
      ((truncQ (b * 1023) % 1024).toNat <<< 2) := by
  have hlt : ∀ x : Int, (x % 1024).toNat < 1024 := fun x => by
    have ha := Int.emod_nonneg x (show (1024 : Int) ≠ 0 by norm_num)
    have hb := Int.emod_lt_of_pos x (show (0 : Int) < 1024 by norm_num)
    omega
  unfold packWord
  rw [storedChan_eq_emod r hr1 hr2, storedChan_eq_emod g hg1 hg2,
    storedChan_eq_emod b hb1 hb2]
  rw [shiftLeft_small (hlt _) (by norm_num),
    shiftLeft_small (hlt _) (by norm_num),
    shiftLeft_small (hlt _) (by norm_num)]

theorem packWord_truncation_formula_witness :
    packWord (1/2) 0 1 =
      ((truncQ ((1/2 : ℚ) * 1023) % 1024).toNat <<< 22) |||
      ((truncQ ((0 : ℚ) * 1023) % 1024).toNat <<< 12) |||
      ((truncQ ((1 : ℚ) * 1023) % 1024).toNat <<< 2) := by
  have h1 : truncQ ((1/2 : ℚ) * 1023) = 511 := by
    rw [show ((1/2 : ℚ) * 1023) = 1023/2 from by norm_num]
    unfold truncQ
    rw [if_neg (by norm_num), Int.floor_eq_iff]
    norm_num
  have h0 : truncQ ((0 : ℚ) * 1023) = 0 := by
    rw [show ((0 : ℚ) * 1023) = 0 from by norm_num]
    unfold truncQ
    rw [if_neg (by norm_num)]
    norm_num
  have hone : truncQ ((1 : ℚ) * 1023) = 1023 := by
    rw [show ((1 : ℚ) * 1023) = 1023 from by norm_num]
    unfold truncQ
    rw [if_neg (by norm_num)]
    norm_num
  exact packWord_truncation_formula (1/2) 0 1
    (by rw [h1]; norm_num) (by rw [h1]; norm_num)
    (by rw [h0]; norm_num) (by rw [h0]; norm_num)
    (by rw [hone]; norm_num) (by rw [hone]; norm_num)

/-! ## Claim C1 -/

set_option maxRecDepth 4000 in
/-- Re-encoding the image decoded from the big-endian file `srcBE1`
writes the packed word `0x00400000` in native little-endian order with
no byte swap: `dpx_endian` holds `">"`, which the guard compares
against `"be"`, so the swap never fires. -/
theorem sinkBE1_eq : sinkBE1 = [83, 68, 80, 88, 0, 0, 0, 8, 0, 0, 64, 0] := by
  have ht : truncQ ((1/1023 : ℚ) * 1023) = 1 := by
    rw [show ((1/1023 : ℚ) * 1023) = 1 from by norm_num]
    unfold truncQ
    rw [if_neg (by norm_num)]
    norm_num
  have ht0 : truncQ ((0 : ℚ) * 1023) = 0 := by
    rw [show ((0 : ℚ) * 1023) = 0 from by norm_num]
    unfold truncQ
    rw [if_neg (by norm_num)]
    norm_num
  have hw1 : wordChan 4194304 22 = 1/1023 := by
    unfold wordChan
    rw [show extractChan 4194304 22 = 1 from rfl]
    norm_num
  have hw2 : wordChan 4194304 12 = 0 := by
    unfold wordChan
    rw [show extractChan 4194304 12 = 0 from rfl]
    norm_num
  have hw3 : wordChan 4194304 2 = 0 := by
    unfold wordChan
    rw [show extractChan 4194304 2 = 0 from rfl]
    norm_num
  have hs1 : storedChan (1/1023) = 1 := by
    rw [storedChan_eq_emod (1/1023) (by rw [ht]; norm_num)
      (by rw [ht]; norm_num), ht]
    decide
  have hs0 : storedChan 0 = 0 := by
    rw [storedChan_eq_emod 0 (by rw [ht0]; norm_num) (by rw [ht0]; norm_num),
      ht0]
    decide
  have packW : packWord (wordChan 4194304 22) (wordChan 4194304 12)
      (wordChan 4194304 2) = 4194304 := by
    rw [hw1, hw2, hw3]
    unfold packWord
    rw [hs1, hs0]
    decide
  have hw : sinkBE1 = writeAt (writeAt [] 0 [83, 68, 80, 88, 0, 0, 0, 8]) 8
      ([packWord (wordChan 4194304 22) (wordChan 4194304 12)
        (wordChan 4194304 2)].flatMap leBytes32) := rfl
  rw [hw, packW]
  decide

set_option maxRecDepth 4000 in
/-- Claim C1, code bug exhibited: on the big-endian file `srcBE1`
(parse selects big-endian, `dpx_endian` caches the character `">"`),
decode byte-swaps the payload and yields the red sample `1/1023`; but
`writeDPX` compares `dpx_endian` with the string `"be"` — never equal
to the stored `">"` — so the re-encoded payload is written unswapped,
and decoding the re-encoded file with the same metadata yields red 0
instead of the original `1/1023`.  Encode does not apply the same
conditional byte swap as decode, and the big-endian round trip fails. -/
theorem bigEndian_roundtrip_swap_bug :
    globalsBE1.dpx_endian = some ">" ∧
    pxOf (readDPXImageData srcBE1 metaBE1) 0 0 0 = 1/1023 ∧
    writeDPX globalsBE1 imgBE1 = some sinkBE1 ∧
    pxOf (readDPXImageData (srcOfList sinkBE1) metaBE1) 0 0 0 = 0 ∧
    pxOf (readDPXImageData (srcOfList sinkBE1) metaBE1) 0 0 0 ≠
      pxOf (readDPXImageData srcBE1 metaBE1) 0 0 0 := by
  have h1 : pxOf (readDPXImageData srcBE1 metaBE1) 0 0 0 =
      wordChan 4194304 22 := rfl
  have hw1 : wordChan 4194304 22 = 1/1023 := by
    unfold wordChan
    rw [show extractChan 4194304 22 = 1 from rfl]
    norm_num
  have h2 : pxOf (readDPXImageData
      (srcOfList [83, 68, 80, 88, 0, 0, 0, 8, 0, 0, 64, 0]) metaBE1) 0 0 0 =
      wordChan 16384 22 := rfl
  have hw2 : wordChan 16384 22 = 0 := by
    unfold wordChan
    rw [show extractChan 16384 22 = 0 from rfl]
    norm_num
  refine ⟨rfl, by rw [h1, hw1], rfl, ?_, ?_⟩
  · rw [sinkBE1_eq, h2, hw2]
  · rw [sinkBE1_eq, h2, hw2, h1, hw1]
    norm_num

end DpxDerez
